import Mathlib

/-!
# Verification of the identity and email-confirmation subsystem

A shallow embedding, in Lean 4, of the email-confirmation core of the
`rust-saas-starter` repository: value objects (`EmailAddress`, `Password`),
the confirmation-token generator (SHA-256 digest, URL-safe base64), the
`EmailAddressServiceImpl` operations `send_email_confirmation` and
`confirm_email`, the `UserServiceImpl::create_user` orchestration, and the
Postgres repository row updates together with their error mappings.

Modelling conventions:
* Rust `DateTime<Utc>` instants are modelled as `Int` values counted in
  seconds; `chrono::Duration::hours h` is `h * 3600`.
* `Uuid` values appear only through their display form, so they are
  modelled as the `String` the Rust code formats them to.
* Byte strings (`&[u8]`, `Vec<u8>`) are `List Nat` with every element
  below 256; Rust `str::as_bytes`/`str::len` are the UTF-8 encoding
  `strBytes` and its length.
* Effectful collaborator calls (repository, mailer, template rendering)
  are modelled by passing each call outcome as an explicit argument and
  by returning the list of collaborator invocations the code performs,
  in program order.
-/

/- ## 32-bit arithmetic helpers (machine integers as Nat mod 2^32) -/

/-- Truncate to 32 bits, the wrap-around of `u32` arithmetic. -/
def w32 (n : Nat) : Nat := n % 4294967296

/-- Addition of `u32` values with wrap-around. -/
def add32 (a b : Nat) : Nat := w32 (a + b)

/-- Rotate a 32-bit word right by `n` bits. -/
def rotr32 (n x : Nat) : Nat := w32 ((x >>> n) ||| (x <<< (32 - n)))

/-- Bitwise complement within 32 bits. -/
def not32 (x : Nat) : Nat := x ^^^ 4294967295

/- ## SHA-256 (FIPS 180-4), as computed by the `sha2` crate -/

/-- The eight working variables of the SHA-256 compression function. -/
structure H8 where
  a : Nat
  b : Nat
  c : Nat
  d : Nat
  e : Nat
  f : Nat
  g : Nat
  h : Nat
deriving Repr, DecidableEq

/-- SHA-256 initial hash value. -/
def shaInit : H8 :=
  ⟨1779033703, 3144134277, 1013904242, 2773480762,
   1359893119, 2600822924, 528734635, 1541459225⟩

/-- The 64 SHA-256 round constants. -/
def shaK : List Nat :=
  [1116352408, 1899447441, 3049323471, 3921009573, 961987163,
   1508970993, 2453635748, 2870763221, 3624381080, 310598401,
   607225278, 1426881987, 1925078388, 2162078206, 2614888103,
   3248222580, 3835390401, 4022224774, 264347078, 604807628,
   770255983, 1249150122, 1555081692, 1996064986, 2554220882,
   2821834349, 2952996808, 3210313671, 3336571891, 3584528711,
   113926993, 338241895, 666307205, 773529912, 1294757372,
   1396182291, 1695183700, 1986661051, 2177026350, 2456956037,
   2730485921, 2820302411, 3259730800, 3345764771, 3516065817,
   3600352804, 4094571909, 275423344, 430227734, 506948616,
   659060556, 883997877, 958139571, 1322822218, 1537002063,
   1747873779, 1955562222, 2024104815, 2227730452, 2361852424,
   2428436474, 2756734187, 3204031479, 3329325298]

/-- SHA-256 small sigma 0. -/
def ssig0 (x : Nat) : Nat := rotr32 7 x ^^^ rotr32 18 x ^^^ (x >>> 3)

/-- SHA-256 small sigma 1. -/
def ssig1 (x : Nat) : Nat := rotr32 17 x ^^^ rotr32 19 x ^^^ (x >>> 10)

/-- SHA-256 big sigma 0. -/
def bsig0 (x : Nat) : Nat := rotr32 2 x ^^^ rotr32 13 x ^^^ rotr32 22 x

/-- SHA-256 big sigma 1. -/
def bsig1 (x : Nat) : Nat := rotr32 6 x ^^^ rotr32 11 x ^^^ rotr32 25 x

/-- SHA-256 choice function. -/
def shaCh (x y z : Nat) : Nat := (x &&& y) ^^^ (not32 x &&& z)

/-- SHA-256 majority function. -/
def shaMaj (x y z : Nat) : Nat := (x &&& y) ^^^ (x &&& z) ^^^ (y &&& z)

/-- Big-endian bytes of a 32-bit word. -/
def word32BytesBE (v : Nat) : List Nat :=
  [(v >>> 24) &&& 255, (v >>> 16) &&& 255, (v >>> 8) &&& 255, v &&& 255]

/-- Big-endian bytes of a 64-bit word (the padded bit length). -/
def word64BytesBE (v : Nat) : List Nat :=
  [(v >>> 56) &&& 255, (v >>> 48) &&& 255, (v >>> 40) &&& 255,
   (v >>> 32) &&& 255, (v >>> 24) &&& 255, (v >>> 16) &&& 255,
   (v >>> 8) &&& 255, v &&& 255]

/-- SHA-256 message padding: `0x80`, zeros to 56 mod 64, 8-byte bit length. -/
def shaPad (msg : List Nat) : List Nat :=
  let zeros := (120 - ((msg.length + 1) % 64)) % 64
  msg ++ [0x80] ++ List.replicate zeros 0 ++ word64BytesBE (msg.length * 8)

/-- Split a byte list into 64-byte blocks, structurally on a fuel bound so
that the kernel can evaluate it. -/
def chunks64Aux : Nat → List Nat → List (List Nat)
  | 0, _ => []
  | _ + 1, [] => []
  | fuel + 1, x :: xs => (x :: xs).take 64 :: chunks64Aux fuel ((x :: xs).drop 64)

/-- Split a byte list into 64-byte blocks. -/
def chunks64 (l : List Nat) : List (List Nat) := chunks64Aux l.length l

/-- The 16 big-endian 32-bit words of a 64-byte block. -/
def blockWords : List Nat → List Nat
  | b0 :: b1 :: b2 :: b3 :: rest =>
      (((b0 <<< 8 ||| b1) <<< 8 ||| b2) <<< 8 ||| b3) :: blockWords rest
  | _ => []

/-- Extend the 16 message words to 64 by `n` applications of the schedule
recurrence `w[i] = ssig1 w[i-2] + w[i-7] + ssig0 w[i-15] + w[i-16]`. -/
def extendWords : Nat → List Nat → List Nat
  | 0, ws => ws
  | n + 1, ws =>
      let i := ws.length
      let w := add32 (add32 (ssig1 (ws.getD (i - 2) 0)) (ws.getD (i - 7) 0))
                     (add32 (ssig0 (ws.getD (i - 15) 0)) (ws.getD (i - 16) 0))
      extendWords n (ws ++ [w])

/-- One SHA-256 round, consuming a round constant paired with a schedule word. -/
def shaRound (s : H8) (kw : Nat × Nat) : H8 :=
  let t1 := add32 s.h (add32 (bsig1 s.e) (add32 (shaCh s.e s.f s.g) (add32 kw.1 kw.2)))
  let t2 := add32 (bsig0 s.a) (shaMaj s.a s.b s.c)
  ⟨add32 t1 t2, s.a, s.b, s.c, add32 s.d t1, s.e, s.f, s.g⟩

/-- Compress one 64-byte block into the running hash state. -/
def shaCompress (s : H8) (block : List Nat) : H8 :=
  let ws := extendWords 48 (blockWords block)
  let t := (shaK.zip ws).foldl shaRound s
  ⟨add32 s.a t.a, add32 s.b t.b, add32 s.c t.c, add32 s.d t.d,
   add32 s.e t.e, add32 s.f t.f, add32 s.g t.g, add32 s.h t.h⟩

/-- The 32 big-endian digest bytes of a hash state. -/
def H8.bytes (s : H8) : List Nat :=
  word32BytesBE s.a ++ word32BytesBE s.b ++ word32BytesBE s.c ++ word32BytesBE s.d ++
  word32BytesBE s.e ++ word32BytesBE s.f ++ word32BytesBE s.g ++ word32BytesBE s.h

/-- SHA-256 of a byte string, as a 32-byte digest. -/
def sha256 (msg : List Nat) : List Nat :=
  ((chunks64 (shaPad msg)).foldl shaCompress shaInit).bytes

/- ## UTF-8 encoding (Rust `str::as_bytes`) -/

/-- The UTF-8 bytes of one character. -/
def utf8Bytes (c : Char) : List Nat :=
  let n := c.toNat
  if n < 0x80 then [n]
  else if n < 0x800 then
    [0xC0 ||| (n >>> 6), 0x80 ||| (n &&& 0x3F)]
  else if n < 0x10000 then
    [0xE0 ||| (n >>> 12), 0x80 ||| ((n >>> 6) &&& 0x3F), 0x80 ||| (n &&& 0x3F)]
  else
    [0xF0 ||| (n >>> 18), 0x80 ||| ((n >>> 12) &&& 0x3F),
     0x80 ||| ((n >>> 6) &&& 0x3F), 0x80 ||| (n &&& 0x3F)]

/-- The UTF-8 bytes of a string: Rust `str::as_bytes`. -/
def strBytes (s : String) : List Nat := (s.data.map utf8Bytes).flatten

/-- Rust `str::len`: the length in UTF-8 bytes, not in characters. -/
def rustStrLen (s : String) : Nat := (strBytes s).length

/- ## URL-safe base64 with padding (`base64::engine::general_purpose::URL_SAFE`) -/

/-- The URL-safe base64 alphabet. -/
def b64UrlAlphabet : List Char :=
  "ABCDEFGHIJKLMNOPQRSTUVWXYZabcdefghijklmnopqrstuvwxyz0123456789-_".data

/-- The base64 character for a 6-bit value. -/
def b64Char (n : Nat) : Char := b64UrlAlphabet.getD n 'A'

/-- URL-safe base64 encoding with `=` padding, three input bytes at a time. -/
def urlSafeEncode : List Nat → List Char
  | [] => []
  | [x] => [b64Char (x >>> 2), b64Char ((x &&& 3) <<< 4), '=', '=']
  | [x, y] => [b64Char (x >>> 2), b64Char (((x &&& 3) <<< 4) ||| (y >>> 4)),
               b64Char ((y &&& 15) <<< 2), '=']
  | x :: y :: z :: rest =>
      b64Char (x >>> 2) :: b64Char (((x &&& 3) <<< 4) ||| (y >>> 4)) ::
      b64Char (((y &&& 15) <<< 2) ||| (z >>> 6)) :: b64Char (z &&& 63) ::
      urlSafeEncode rest

/- ## Domain data model -/

/-- Model of `chrono::Duration::hours`, in seconds. -/
def hours (h : Int) : Int := h * 3600

/-- The `User` aggregate (src/lib/domain/auth/users, as read back by the
Postgres repository). The `Uuid` id is kept in its display form. -/
structure User where
  id : String
  email : String
  new_email : Option String
  email_confirmed_at : Option Int
  email_confirmation_token : Option String
  email_confirmation_sent_at : Option Int
  created_at : Int
  updated_at : Int
deriving Repr, DecidableEq

/-- Model of `UpdateUserError` (src/lib/domain/auth/users/errors.rs). The payload of
`UnknownError` is dropped. -/
inductive UpdateUserError where
  | UserNotFound
  | EmailAddressInUse
  | UnknownError
deriving Repr, DecidableEq

/-- Model of `CreateUserError` (src/lib/domain/auth/users/errors.rs). -/
inductive CreateUserError where
  | DuplicateUser
  | UnknownError
deriving Repr, DecidableEq

/-- Model of `MailerError` (src/lib/domain/communication/mailer/errors.rs). -/
inductive MailerError where
  | SendError
  | InvalidEmail
  | UnknownError
deriving Repr, DecidableEq

/-- Model of `EmailConfirmationError`
(src/lib/domain/communication/email_addresses/errors.rs). -/
inductive EmailConfirmationError where
  | UserNotFound
  | EmailAddressInUse
  | CouldNotSendEmail
  | EmailAlreadyConfirmed
  | ConfirmationTokenExpired
  | ConfirmationTokenMismatch
  | UnknownError
deriving Repr, DecidableEq

/-- Conversion of `UpdateUserError` into `EmailConfirmationError`, the `From`
impl in src/lib/domain/communication/email_addresses/errors.rs. -/
def emailConfirmationErrorOfUpdate : UpdateUserError → EmailConfirmationError
  | .UserNotFound => .UserNotFound
  | .UnknownError => .UnknownError
  | .EmailAddressInUse => .EmailAddressInUse

/-- Conversion of `MailerError` into `EmailConfirmationError`, the `From`
impl in src/lib/domain/communication/email_addresses/errors.rs. -/
def emailConfirmationErrorOfMailer : MailerError → EmailConfirmationError
  | .SendError => .CouldNotSendEmail
  | .InvalidEmail => .CouldNotSendEmail
  | .UnknownError => .UnknownError

/-- Model of `constant_time_eq` from the `constant_time_eq` crate: compare byte
slices, returning false on a length mismatch and otherwise or-accumulating
the xor of every byte pair. Functionally this is byte-for-byte equality. -/
def constant_time_eq (a b : List Nat) : Bool :=
  a.length == b.length &&
    ((a.zip b).foldl (fun tmp p => tmp ||| (p.1 ^^^ p.2)) 0 == 0)

/-- Model of `EmailConfirmationType`
(src/lib/domain/communication/email_addresses/service.rs). -/
inductive EmailConfirmationType where
  | CurrentEmail
  | NewEmail (email : String)
deriving Repr, DecidableEq

/-- Model of `EmailConfirmationType::subject`. -/
def EmailConfirmationType.subject : EmailConfirmationType → String
  | .CurrentEmail => "Please confirm your email address"
  | .NewEmail _ => "Please confirm your new email address"

/-- The `new_email` argument that `send_email_confirmation` passes to the
token generator for each confirmation type. -/
def EmailConfirmationType.newEmailArg : EmailConfirmationType → Option String
  | .CurrentEmail => none
  | .NewEmail e => some e

/-- The recipient chosen by `send_email_confirmation` for each
confirmation type. -/
def EmailConfirmationType.recipient (user : User) : EmailConfirmationType → String
  | .CurrentEmail => user.email
  | .NewEmail e => e

/-- One collaborator invocation performed by the service, in program order. -/
inductive Effect where
  | updateEmailConfirmationToken (userId : String) (token : String) (newEmail : Option String)
  | updateEmailConfirmed (userId : String) (newEmail : Option String)
  | sendEmail (recipient : String) (subject : String) (html : String) (plain : String)
deriving Repr, DecidableEq

/- ## EmailAddressServiceImpl
(src/lib/domain/communication/email_addresses/service.rs) -/

/-- The string hashed by `generate_email_confirmation_token`:
`format!("{}{}{}", user_id, salt, Utc::now().timestamp())`. -/
def confirmationTokenData (user_id salt : String) (timestamp : Int) : String :=
  user_id ++ salt ++ toString timestamp

/-- The confirmation token minted by `generate_email_confirmation_token`:
URL-safe base64 of the SHA-256 digest of `confirmationTokenData`. -/
def mkConfirmationToken (user_id salt : String) (timestamp : Int) : String :=
  String.mk (urlSafeEncode (sha256 (strBytes (confirmationTokenData user_id salt timestamp))))

/-- The outcomes of the collaborator calls made during one
`send_email_confirmation` request, passed in explicitly: the random salt,
the two `Utc::now()` readings, the repository persistence outcome, the two
template-rendering outcomes and the mailer outcome. -/
structure SendEnv where
  salt : String
  tokenTimestamp : Int
  expiryBase : Int
  repoUpdateTokenResult : Except UpdateUserError Unit
  htmlRender : Except Unit String
  plainRender : Except Unit String
  mailerResult : Except MailerError Unit

/-- Model of `EmailAddressServiceImpl::generate_email_confirmation_token`: mint the
token, persist it (with issuance time) through the repository, and return
the token with its expiry. The Rust function returns `anyhow::Result`, so
any repository error is absorbed into an opaque error, modelled as `Unit`. -/
def generate_email_confirmation_token (user_id : String) (new_email : Option String)
    (env : SendEnv) : Except Unit (String × Int) × List Effect :=
  let token := mkConfirmationToken user_id env.salt env.tokenTimestamp
  match env.repoUpdateTokenResult with
  | .error _ => (.error (), [.updateEmailConfirmationToken user_id token new_email])
  | .ok _ => (.ok (token, env.expiryBase + hours 24),
              [.updateEmailConfirmationToken user_id token new_email])

/-- Model of `EmailAddressServiceImpl::send_email_confirmation`: guard against an
already-confirmed account, mint and persist a token, render the message and
dispatch it, returning the token expiry. The second component lists the
collaborator calls actually performed, in program order. -/
def send_email_confirmation (user : User) (ctype : EmailConfirmationType)
    (env : SendEnv) : Except EmailConfirmationError Int × List Effect :=
  if user.email_confirmed_at.isSome && user.new_email.isNone then
    (.error .EmailAlreadyConfirmed, [])
  else
    match generate_email_confirmation_token user.id ctype.newEmailArg env with
    | (.error _, effs) => (.error .UnknownError, effs)
    | (.ok (_token, expires_at), effs) =>
      match env.htmlRender with
      | .error _ => (.error .CouldNotSendEmail, effs)
      | .ok html =>
        match env.plainRender with
        | .error _ => (.error .CouldNotSendEmail, effs)
        | .ok plain =>
          let effs := effs ++ [.sendEmail (ctype.recipient user) ctype.subject html plain]
          match env.mailerResult with
          | .error e => (.error (emailConfirmationErrorOfMailer e), effs)
          | .ok _ => (.ok expires_at, effs)

/-- Model of `EmailAddressServiceImpl::confirm_email`: guard against an
already-confirmed account, require a stored token and issuance time, check
the 24-hour expiry, compare tokens in constant time, then ask the
repository to mark the user confirmed. `repoUpdate` is the outcome of that
repository call; the second component lists the collaborator calls made. -/
def confirm_email (user : User) (token : String) (now : Int)
    (repoUpdate : Except UpdateUserError Unit) :
    Except EmailConfirmationError Unit × List Effect :=
  if user.email_confirmed_at.isSome && user.new_email.isNone then
    (.error .EmailAlreadyConfirmed, [])
  else
    match user.email_confirmation_token with
    | none => (.error .ConfirmationTokenMismatch, [])
    | some expected_token =>
      match user.email_confirmation_sent_at with
      | none => (.error .ConfirmationTokenMismatch, [])
      | some confirmation_sent_at =>
        let expires_at := confirmation_sent_at + hours 24
        if now > expires_at then (.error .ConfirmationTokenExpired, [])
        else if !constant_time_eq (strBytes token) (strBytes expected_token) then
          (.error .ConfirmationTokenMismatch, [])
        else
          match repoUpdate with
          | .error e => (.error (emailConfirmationErrorOfUpdate e),
                         [.updateEmailConfirmed user.id user.new_email])
          | .ok _ => (.ok (), [.updateEmailConfirmed user.id user.new_email])

/- ## UserServiceImpl::create_user (src/lib/domain/auth/services/user.rs) -/

/-- Model of the `.ok()` call that the spawned background task applies to
its outcome: the result, success or failure, is discarded. -/
def swallowResult {ε α : Type} : Except ε α → Unit := fun _ => ()

/-- Model of `UserServiceImpl::create_user`: call the repository, spawn the
background confirmation dispatch, and return the repository result. The
repository outcome and the outcome of whichever background call runs
(`send_email_confirmation` when confirmation is required, otherwise
`update_email_confirmed`) are passed in explicitly; the `Unit` component is
all that the spawned task contributes to the caller. -/
def create_user (repoCreateResult : Except CreateUserError String)
    (email_confirmation_required : Bool)
    (backgroundSendResult : Except EmailConfirmationError Int)
    (backgroundUpdateResult : Except UpdateUserError Unit) :
    Except CreateUserError String × Unit :=
  (repoCreateResult,
   if email_confirmation_required then swallowResult backgroundSendResult
   else swallowResult backgroundUpdateResult)

/- ## PostgresDatabase repository updates
(src/lib/infrastructure/db/postgres/auth/users.rs) -/

/-- The columns of a `users` row that the two confirmation updates read or
write. -/
structure UserRow where
  email : String
  new_email : Option String
  email_confirmed_at : Option Int
  email_confirmation_token : Option String
  email_confirmation_sent_at : Option Int
deriving Repr, DecidableEq

/-- Model of the SET clause of `PostgresDatabase::update_email_confirmation_token`:
`email_confirmation_token = $1, email_confirmation_sent_at = NOW(),
new_email = COALESCE($3, new_email)`. -/
def update_email_confirmation_token (row : UserRow) (token : String)
    (new_email : Option String) (now : Int) : UserRow :=
  { row with
    email_confirmation_token := some token
    email_confirmation_sent_at := some now
    new_email := match new_email with | some e => some e | none => row.new_email }

/-- Model of the SET clause of `PostgresDatabase::update_email_confirmed`:
`email_confirmed_at = NOW(), email_confirmation_token = NULL,
email = COALESCE($2, email), new_email = NULL`. The column
`email_confirmation_sent_at` is not mentioned by the statement and is left
unchanged. -/
def update_email_confirmed (row : UserRow) (new_email : Option String)
    (now : Int) : UserRow :=
  { row with
    email_confirmed_at := some now
    email_confirmation_token := none
    email := match new_email with | some e => e | none => row.email
    new_email := none }

/-- The invariant claimed for `User`: the confirmation token and the
issuance timestamp are both present or both absent. -/
def tokenSentInvariant (row : UserRow) : Prop :=
  row.email_confirmation_token.isSome = row.email_confirmation_sent_at.isSome

instance (row : UserRow) : Decidable (tokenSentInvariant row) := by
  unfold tokenSentInvariant; infer_instance

/-- Kinds of database errors distinguished by `sqlx::error::ErrorKind`. -/
inductive SqlxErrorKind where
  | UniqueViolation
  | ForeignKeyViolation
  | NotNullViolation
  | CheckViolation
  | Other
deriving Repr, DecidableEq

/-- Shape of `sqlx::Error` as far as the repository code inspects it. -/
inductive SqlxError where
  | RowNotFound
  | Database (kind : SqlxErrorKind)
  | OtherError
deriving Repr, DecidableEq

/-- Model of the `From` conversion of `sqlx::Error` into `UpdateUserError`
(src/lib/domain/auth/users/errors.rs, lines 61 to 68): only `RowNotFound`
is special-cased; every other error, including a database unique violation,
becomes `UnknownError`. -/
def updateUserErrorFromSqlx : SqlxError → UpdateUserError
  | .RowNotFound => .UserNotFound
  | _ => .UnknownError

/-- Model of the inline `map_err` of `PostgresDatabase::update_email_confirmed`:
`RowNotFound` becomes `UserNotFound`, anything else `UnknownError`. -/
def pgUpdateEmailConfirmedMapErr : SqlxError → UpdateUserError
  | .RowNotFound => .UserNotFound
  | _ => .UnknownError

/-- Modelled from the spec: the `users` table enforces a unique constraint
on `email` (the migration files are not part of the sources; section 4.2 of
the spec requires uniqueness to be enforced atomically by the store). An
UPDATE that would set `email` to a value already used by another account
fails with a database `UniqueViolation` and leaves the row unchanged. -/
def runUpdateEmailConfirmed (row : UserRow) (new_email : Option String)
    (now : Int) (otherEmails : List String) : Except SqlxError UserRow :=
  match new_email with
  | some e =>
      if otherEmails.contains e then .error (.Database .UniqueViolation)
      else .ok (update_email_confirmed row (some e) now)
  | none => .ok (update_email_confirmed row none now)

/-- Model of the whole `PostgresDatabase::update_email_confirmed` call: run
the UPDATE against the unique constraint and translate any database error
through the inline `map_err`. -/
def pg_update_email_confirmed (row : UserRow) (new_email : Option String)
    (now : Int) (otherEmails : List String) : Except UpdateUserError UserRow :=
  match runUpdateEmailConfirmed row new_email now otherEmails with
  | .error e => .error (pgUpdateEmailConfirmedMapErr e)
  | .ok r => .ok r

/- ## Value objects (src/lib/domain/auth/value_objects) -/

/-- Model of `PasswordError` (password.rs). -/
inductive PasswordError where
  | TooShort
  | TooLong
  | TooWeak (suggestions : List String)
deriving Repr, DecidableEq

/-- Model of `Password::new`: reject byte length below 8 (`TooShort`) or
above 100 (`TooLong`), then consult the `zxcvbn` strength estimator and
reject scores below 3 (`TooWeak`, carrying the estimator suggestions or a
fixed fallback). The external `zxcvbn` crate is abstracted as the two
oracle arguments `score` and `feedback`. -/
def Password.new (score : String → Nat) (feedback : String → Option (List String))
    (raw : String) : Except PasswordError String :=
  if rustStrLen raw < 8 then .error .TooShort
  else if rustStrLen raw > 100 then .error .TooLong
  else if score raw < 3 then
    .error (.TooWeak (match feedback raw with
      | some suggestions => suggestions
      | none => ["Please choose a stronger password."]))
  else .ok raw

/-- Model of `EmailAddressError` (email_address.rs). -/
inductive EmailAddressError where
  | EmptyEmailAddress
  | InvalidEmailAddress
deriving Repr, DecidableEq

/-- Whitespace, as matched by the regex class `\s`. -/
def isWsChar (c : Char) : Bool :=
  c = ' ' || c = '\t' || c = '\n' || c = '\r' || c = '\x0b' || c = '\x0c'

/-- Characters allowed by the regex class `[^@\s]`. -/
def isSegChar (c : Char) : Bool := !(c = '@' || isWsChar c)

/-- Model of Rust `str::trim`: strip whitespace from both ends. -/
def trimChars (l : List Char) : List Char :=
  ((l.dropWhile isWsChar).reverse.dropWhile isWsChar).reverse

/-- Decision procedure for EMAIL_REGEX, the pattern
`^[^@\s]*?@[^@\s]*?\.[^@\s]*$` of email_address.rs: scan to the first at
sign through characters the class `[^@\s]` allows; after the at sign the
remainder must consist of such characters and contain a dot. The theorem
`emailRegexIsMatch_iff` proves this equivalent to the declarative reading
of the pattern. -/
def emailRegexIsMatch : List Char → Bool
  | [] => false
  | c :: rest =>
      if c = '@' then rest.all isSegChar && rest.contains '.'
      else isSegChar c && emailRegexIsMatch rest

/-- Declarative reading of EMAIL_REGEX: some decomposition
`a ++ "@" ++ b ++ "." ++ c` where each segment avoids at signs and
whitespace. -/
def emailRegexSemantics (s : List Char) : Prop :=
  ∃ a b c, s = a ++ '@' :: b ++ '.' :: c ∧
    (∀ ch ∈ a, isSegChar ch) ∧ (∀ ch ∈ b, isSegChar ch) ∧ (∀ ch ∈ c, isSegChar ch)

/-- Model of `EmailAddress::new`: trim, reject the empty string, reject
anything the regex does not match, and keep the trimmed string. -/
def EmailAddress.new (raw : String) : Except EmailAddressError String :=
  let trimmed := trimChars raw.data
  if trimmed.isEmpty then .error .EmptyEmailAddress
  else if !emailRegexIsMatch trimmed then .error .InvalidEmailAddress
  else .ok (String.mk trimmed)

/- ## Supporting lemmas -/

/-- A bitwise or of naturals is zero exactly when both sides are zero. -/
theorem natLorEqZero (m n : Nat) : (m ||| n) = 0 ↔ m = 0 ∧ n = 0 := by
  constructor
  · intro h
    constructor
    · refine Nat.eq_of_testBit_eq fun i => ?_
      have hb := congrArg (fun x => Nat.testBit x i) h
      simp only [Nat.testBit_lor, Nat.zero_testBit, Bool.or_eq_false_iff] at hb
      simp [Nat.zero_testBit, hb.1]
    · refine Nat.eq_of_testBit_eq fun i => ?_
      have hb := congrArg (fun x => Nat.testBit x i) h
      simp only [Nat.testBit_lor, Nat.zero_testBit, Bool.or_eq_false_iff] at hb
      simp [Nat.zero_testBit, hb.2]
  · rintro ⟨rfl, rfl⟩
    rfl

/-- The or-accumulating xor fold of `constant_time_eq` is zero exactly when
the accumulator is zero and every paired byte agrees. -/
theorem ctFoldEqZero (l : List (Nat × Nat)) :
    ∀ acc, (l.foldl (fun tmp p => tmp ||| (p.1 ^^^ p.2)) acc = 0) ↔
      (acc = 0 ∧ ∀ p ∈ l, p.1 = p.2) := by
  induction l with
  | nil => simp
  | cons p l ih =>
      intro acc
      simp only [List.foldl_cons, ih, natLorEqZero, Nat.xor_eq_zero, List.mem_cons]
      constructor
      · rintro ⟨⟨h0, hp⟩, hrest⟩
        exact ⟨h0, fun q hq => by rcases hq with rfl | hq; exact hp; exact hrest q hq⟩
      · rintro ⟨h0, hall⟩
        exact ⟨⟨h0, hall p (Or.inl rfl)⟩, fun q hq => hall q (Or.inr hq)⟩

/-- Two lists are equal exactly when their lengths agree and every zipped
pair agrees. -/
theorem zipPointwiseEq : ∀ (a b : List Nat),
    (a.length = b.length ∧ ∀ p ∈ a.zip b, p.1 = p.2) ↔ a = b := by
  intro a
  induction a with
  | nil => intro b; cases b <;> simp
  | cons x xs ih =>
      intro b
      cases b with
      | nil => simp
      | cons y ys =>
          simp only [List.zip_cons_cons, List.mem_cons, List.length_cons]
          constructor
          · rintro ⟨hlen, hall⟩
            have hx : x = y := hall (x, y) (Or.inl rfl)
            have : xs = ys := (ih ys).mp
              ⟨by omega, fun p hp => hall p (Or.inr hp)⟩
            simp [hx, this]
          · rintro h
            injection h with h1 h2
            subst h1; subst h2
            refine ⟨rfl, fun p hp => ?_⟩
            have := (ih xs).mpr rfl
            rcases hp with rfl | hp
            · rfl
            · exact this.2 p hp

/-- Functional correctness of `constant_time_eq`: it returns true exactly
when the two byte strings are equal. -/
theorem constant_time_eq_spec (a b : List Nat) :
    constant_time_eq a b = true ↔ a = b := by
  unfold constant_time_eq
  rw [Bool.and_eq_true, beq_iff_eq, beq_iff_eq, ctFoldEqZero]
  rw [← zipPointwiseEq a b]
  constructor
  · rintro ⟨h1, _, h2⟩; exact ⟨h1, h2⟩
  · rintro ⟨h1, h2⟩; exact ⟨h1, rfl, h2⟩

/-- Length of the URL-safe base64 encoding: four output characters for
every started group of three input bytes. -/
theorem urlSafeEncode_length : (l : List Nat) →
    (urlSafeEncode l).length = (l.length + 2) / 3 * 4
  | [] => rfl
  | [_] => by simp [urlSafeEncode]
  | [_, _] => by simp [urlSafeEncode]
  | x :: y :: z :: rest => by
      have ih := urlSafeEncode_length rest
      simp only [urlSafeEncode, List.length_cons, ih]
      omega

/-- A SHA-256 digest always has 32 bytes. -/
theorem sha256_length (msg : List Nat) : (sha256 msg).length = 32 := by
  simp [sha256, H8.bytes, word32BytesBE]

/-- Decidable equality for `Except`, used to evaluate concrete outcomes. -/
instance exceptDecEq {e a : Type} [DecidableEq e] [DecidableEq a] :
    DecidableEq (Except e a) := fun x y =>
  match x, y with
  | .ok v, .ok w =>
      if h : v = w then isTrue (by rw [h]) else isFalse fun hh => h (Except.ok.inj hh)
  | .error v, .error w =>
      if h : v = w then isTrue (by rw [h]) else isFalse fun hh => h (Except.error.inj hh)
  | .ok _, .error _ => isFalse fun hh => Except.noConfusion hh
  | .error _, .ok _ => isFalse fun hh => Except.noConfusion hh

/-- Reduction of `confirm_email` for a user that is not already confirmed
and holds a stored token and issuance time: only the expiry check, the
constant-time comparison and the repository outcome remain. -/
theorem confirm_email_unfolded (user : User) (stored presented : String)
    (sentAt now : Int) (repo : Except UpdateUserError Unit)
    (hc : user.email_confirmed_at = none ∨ user.new_email ≠ none)
    (htok : user.email_confirmation_token = some stored)
    (hsent : user.email_confirmation_sent_at = some sentAt) :
    confirm_email user presented now repo =
      if now > sentAt + hours 24 then
        (.error .ConfirmationTokenExpired, [])
      else if !constant_time_eq (strBytes presented) (strBytes stored) then
        (.error .ConfirmationTokenMismatch, [])
      else
        match repo with
        | .error e => (.error (emailConfirmationErrorOfUpdate e),
                       [.updateEmailConfirmed user.id user.new_email])
        | .ok _ => (.ok (), [.updateEmailConfirmed user.id user.new_email]) := by
  have hguard : (user.email_confirmed_at.isSome && user.new_email.isNone) = false := by
    rcases hc with h | h
    · simp [h]
    · cases hn : user.new_email with
      | none => exact absurd hn h
      | some v => simp [hn]
  simp only [confirm_email, hguard, htok, hsent, Bool.false_eq_true, if_false]

/-- C1: for every user that is not already confirmed (no confirmation
timestamp, or a pending new email) and has a stored confirmation token
issued within the last 24 hours, `confirm_email` succeeds exactly when the
presented token is byte-for-byte equal to the stored one (the comparison
goes through `constant_time_eq`), and returns `ConfirmationTokenMismatch`
for every other presented string of any byte length; the model is a total
function, so no input can panic. -/
theorem confirm_email_token_equality (user : User) (stored presented : String)
    (sentAt now : Int)
    (hc : user.email_confirmed_at = none ∨ user.new_email ≠ none)
    (htok : user.email_confirmation_token = some stored)
    (hsent : user.email_confirmation_sent_at = some sentAt)
    (hwin : sentAt ≤ now ∧ now ≤ sentAt + hours 24) :
    ((confirm_email user presented now (Except.ok ())).1 = Except.ok () ↔
      strBytes presented = strBytes stored) ∧
    (strBytes presented ≠ strBytes stored →
      ∀ repo, (confirm_email user presented now repo).1 =
        Except.error EmailConfirmationError.ConfirmationTokenMismatch) := by
  have hexp : ¬ now > sentAt + hours 24 := by omega
  constructor
  · rw [confirm_email_unfolded user stored presented sentAt now (Except.ok ()) hc htok hsent]
    by_cases heq : strBytes presented = strBytes stored
    · have hct : constant_time_eq (strBytes presented) (strBytes stored) = true :=
        (constant_time_eq_spec _ _).mpr heq
      rw [if_neg hexp]
      simp only [hct, Bool.not_true, Bool.false_eq_true, if_false]
      simpa using heq
    · have hct : constant_time_eq (strBytes presented) (strBytes stored) = false := by
        rcases hb : constant_time_eq (strBytes presented) (strBytes stored) with _ | _
        · rfl
        · exact absurd ((constant_time_eq_spec _ _).mp hb) heq
      rw [if_neg hexp]
      simp [hct, heq]
  · intro heq repo
    rw [confirm_email_unfolded user stored presented sentAt now repo hc htok hsent]
    have hct : constant_time_eq (strBytes presented) (strBytes stored) = false := by
      rcases hb : constant_time_eq (strBytes presented) (strBytes stored) with _ | _
      · rfl
      · exact absurd ((constant_time_eq_spec _ _).mp hb) heq
    simp [hexp, hct]

/-- Witness for C1: a fresh user with stored token "T" issued at time 0;
at time 100, presenting "T" succeeds and presenting "X" is rejected with
`ConfirmationTokenMismatch`. -/
theorem confirm_email_token_equality_witness :
    (confirm_email ⟨"u1", "e@x.com", none, none, some "T", some 0, 0, 0⟩
        "T" 100 (Except.ok ())).1 = Except.ok () ∧
    (confirm_email ⟨"u1", "e@x.com", none, none, some "T", some 0, 0, 0⟩
        "X" 100 (Except.ok ())).1 =
      Except.error EmailConfirmationError.ConfirmationTokenMismatch :=
  ⟨(confirm_email_token_equality ⟨"u1", "e@x.com", none, none, some "T", some 0, 0, 0⟩
      "T" "T" 0 100 (Or.inl rfl) rfl rfl (by decide)).1.mpr rfl,
   (confirm_email_token_equality ⟨"u1", "e@x.com", none, none, some "T", some 0, 0, 0⟩
      "T" "X" 0 100 (Or.inl rfl) rfl rfl (by decide)).2 (by decide) (Except.ok ())⟩

/-- Counterexample to C2 as stated: a user whose email is already confirmed
and has no pending new email, yet still carries a stored token issued at
time 0; at time 1000000 (well past the 24-hour window) `confirm_email`
returns `EmailAlreadyConfirmed`, not `ConfirmationTokenExpired`, because
the already-confirmed guard runs before the expiry check. -/
theorem confirm_email_expired_counterexample :
    (⟨"u2", "e@x.com", none, some 0, some "tok", some 0, 0, 0⟩ : User).email_confirmation_token
        = some "tok" ∧
    (⟨"u2", "e@x.com", none, some 0, some "tok", some 0, 0, 0⟩ : User).email_confirmation_sent_at
        = some 0 ∧
    (1000000 : Int) > 0 + hours 24 ∧
    (confirm_email ⟨"u2", "e@x.com", none, some 0, some "tok", some 0, 0, 0⟩
        "tok" 1000000 (Except.ok ())).1 =
      Except.error EmailConfirmationError.EmailAlreadyConfirmed ∧
    (confirm_email ⟨"u2", "e@x.com", none, some 0, some "tok", some 0, 0, 0⟩
        "tok" 1000000 (Except.ok ())).1 ≠
      Except.error EmailConfirmationError.ConfirmationTokenExpired := by
  decide

/-- C2 (amended): for every user that is not already confirmed (no
confirmation timestamp, or a pending new email) and has a stored token and
issuance time, when the current time is past issuance plus 24 hours,
`confirm_email` returns `ConfirmationTokenExpired` for every presented
token — even an exact match — and every repository outcome, because the
expiry check runs strictly before the token comparison. -/
theorem confirm_email_expired (user : User) (stored presented : String)
    (sentAt now : Int) (repo : Except UpdateUserError Unit)
    (hc : user.email_confirmed_at = none ∨ user.new_email ≠ none)
    (htok : user.email_confirmation_token = some stored)
    (hsent : user.email_confirmation_sent_at = some sentAt)
    (hexp : now > sentAt + hours 24) :
    (confirm_email user presented now repo).1 =
      Except.error EmailConfirmationError.ConfirmationTokenExpired := by
  rw [confirm_email_unfolded user stored presented sentAt now repo hc htok hsent]
  simp [hexp]

/-- Witness for C2 (amended): an unconfirmed user with token "tok" issued
at time 0, presented the matching token at time 200000. -/
theorem confirm_email_expired_witness :
    (confirm_email ⟨"u3", "e@x.com", none, none, some "tok", some 0, 0, 0⟩
        "tok" 200000 (Except.ok ())).1 =
      Except.error EmailConfirmationError.ConfirmationTokenExpired :=
  confirm_email_expired ⟨"u3", "e@x.com", none, none, some "tok", some 0, 0, 0⟩
    "tok" "tok" 0 200000 (Except.ok ()) (Or.inl rfl) rfl rfl (by decide)

/-- C3: for every user whose email is confirmed and has no pending new
email, both `send_email_confirmation` and `confirm_email` return
`EmailAlreadyConfirmed` with an empty effect list: neither the repository
nor the mailer is ever invoked, so no stored state changes and no mail is
sent. -/
theorem already_confirmed_rejected (user : User) (t : Int)
    (ctype : EmailConfirmationType) (env : SendEnv) (token : String)
    (now : Int) (repo : Except UpdateUserError Unit)
    (hconf : user.email_confirmed_at = some t) (hnew : user.new_email = none) :
    send_email_confirmation user ctype env =
      (Except.error EmailConfirmationError.EmailAlreadyConfirmed, []) ∧
    confirm_email user token now repo =
      (Except.error EmailConfirmationError.EmailAlreadyConfirmed, []) := by
  constructor
  · simp [send_email_confirmation, hconf, hnew]
  · simp [confirm_email, hconf, hnew]

/-- Witness for C3: a user confirmed at time 5 with nothing pending. -/
theorem already_confirmed_rejected_witness :
    send_email_confirmation ⟨"u4", "e@x.com", none, some 5, none, none, 0, 0⟩
      EmailConfirmationType.CurrentEmail
      ⟨"s", 0, 0, Except.ok (), Except.ok "h", Except.ok "p", Except.ok ()⟩ =
      (Except.error EmailConfirmationError.EmailAlreadyConfirmed, []) ∧
    confirm_email ⟨"u4", "e@x.com", none, some 5, none, none, 0, 0⟩
      "t" 0 (Except.ok ()) =
      (Except.error EmailConfirmationError.EmailAlreadyConfirmed, []) :=
  already_confirmed_rejected ⟨"u4", "e@x.com", none, some 5, none, none, 0, 0⟩
    5 EmailConfirmationType.CurrentEmail
    ⟨"s", 0, 0, Except.ok (), Except.ok "h", Except.ok "p", Except.ok ()⟩
    "t" 0 (Except.ok ()) rfl rfl

/-- C6: in `send_email_confirmation`, whenever the repository persistence
of the freshly generated token fails, the whole operation returns an error
and the mailer is never invoked; and in every run, any mailer invocation is
preceded by the persistence call, which is always the first collaborator
call performed. -/
theorem send_email_confirmation_persists_before_mail (user : User)
    (ctype : EmailConfirmationType) (env : SendEnv) :
    (∀ e, env.repoUpdateTokenResult = Except.error e →
      (∀ v, (send_email_confirmation user ctype env).1 ≠ Except.ok v) ∧
      ∀ r s hb pb, Effect.sendEmail r s hb pb ∉ (send_email_confirmation user ctype env).2) ∧
    (∀ r s hb pb, Effect.sendEmail r s hb pb ∈ (send_email_confirmation user ctype env).2 →
      (send_email_confirmation user ctype env).2.head? =
        some (Effect.updateEmailConfirmationToken user.id
          (mkConfirmationToken user.id env.salt env.tokenTimestamp) ctype.newEmailArg)) := by
  by_cases hguard : (user.email_confirmed_at.isSome && user.new_email.isNone) = true
  · constructor
    · intro e _
      constructor
      · intro v
        simp [send_email_confirmation, hguard]
      · intro r s hb pb
        simp [send_email_confirmation, hguard]
    · intro r s hb pb
      simp [send_email_confirmation, hguard]
  · rcases henv : env.repoUpdateTokenResult with e | u
    · constructor
      · intro e' _
        constructor
        · intro v
          simp [send_email_confirmation, generate_email_confirmation_token, hguard, henv]
        · intro r s hb pb
          simp [send_email_confirmation, generate_email_confirmation_token, hguard, henv]
      · intro r s hb pb _
        simp [send_email_confirmation, generate_email_confirmation_token, hguard, henv]
    · constructor
      · intro e' habs
        exact absurd habs (by simp)
      · intro r s hb pb _
        rcases hh : env.htmlRender with eh | vh <;>
          rcases hp : env.plainRender with ep | vp <;>
            rcases hm : env.mailerResult with em | vm <;>
              simp [send_email_confirmation, generate_email_confirmation_token,
                    hguard, henv, hh, hp, hm]

/-- Witness for C6: an unconfirmed user whose repository persistence call
fails with an unknown error; the operation fails and no mail effect is
recorded. -/
theorem send_email_confirmation_persists_before_mail_witness :
    (∀ v, (send_email_confirmation ⟨"u5", "e@x.com", none, none, none, none, 0, 0⟩
        EmailConfirmationType.CurrentEmail
        ⟨"s", 0, 0, Except.error UpdateUserError.UnknownError,
         Except.ok "h", Except.ok "p", Except.ok ()⟩).1 ≠ Except.ok v) ∧
    Effect.sendEmail "e@x.com" "Please confirm your email address" "h" "p" ∉
      (send_email_confirmation ⟨"u5", "e@x.com", none, none, none, none, 0, 0⟩
        EmailConfirmationType.CurrentEmail
        ⟨"s", 0, 0, Except.error UpdateUserError.UnknownError,
         Except.ok "h", Except.ok "p", Except.ok ()⟩).2 :=
  ⟨((send_email_confirmation_persists_before_mail
      ⟨"u5", "e@x.com", none, none, none, none, 0, 0⟩
      EmailConfirmationType.CurrentEmail
      ⟨"s", 0, 0, Except.error UpdateUserError.UnknownError,
       Except.ok "h", Except.ok "p", Except.ok ()⟩).1
      UpdateUserError.UnknownError rfl).1,
   ((send_email_confirmation_persists_before_mail
      ⟨"u5", "e@x.com", none, none, none, none, 0, 0⟩
      EmailConfirmationType.CurrentEmail
      ⟨"s", 0, 0, Except.error UpdateUserError.UnknownError,
       Except.ok "h", Except.ok "p", Except.ok ()⟩).1
      UpdateUserError.UnknownError rfl).2
      "e@x.com" "Please confirm your email address" "h" "p"⟩

/-- C7: `create_user` hands back exactly the repository result; the outcome
of the background confirmation dispatch — success or any failure of the
send or of the fallback confirmed-update, mailer errors included — never
reaches the caller of `create_user`. -/
theorem create_user_returns_repo_result (repoCreateResult : Except CreateUserError String)
    (email_confirmation_required : Bool)
    (backgroundSendResult : Except EmailConfirmationError Int)
    (backgroundUpdateResult : Except UpdateUserError Unit) :
    create_user repoCreateResult email_confirmation_required
        backgroundSendResult backgroundUpdateResult = (repoCreateResult, ()) := by
  cases email_confirmation_required <;> rfl

/-- Counterexample to C4 as stated: a row holding the invariant (token "T"
stored with issuance time 5) loses it when `update_email_confirmed` runs,
because the UPDATE clears the token but never touches
`email_confirmation_sent_at`. -/
theorem update_email_confirmed_invariant_counterexample :
    tokenSentInvariant ⟨"e@x.com", none, none, some "T", some 5⟩ ∧
    ¬ tokenSentInvariant (update_email_confirmed ⟨"e@x.com", none, none, some "T", some 5⟩ none 10) ∧
    (update_email_confirmed ⟨"e@x.com", none, none, some "T", some 5⟩ none 10).email_confirmation_token = none ∧
    (update_email_confirmed ⟨"e@x.com", none, none, some "T", some 5⟩ none 10).email_confirmation_sent_at = some 5 := by
  decide

/-- C4 (amended): issuing a token sets both the token and the issuance
time, so issuance always establishes the both-present-or-both-absent
invariant; marking the user confirmed clears the token (and the pending
new email) but leaves the issuance time exactly as it was, so confirmation
does not preserve that invariant whenever an issuance time is stored. -/
theorem confirmation_token_invariant_partial (row : UserRow) (token : String)
    (new_email : Option String) (now : Int) :
    tokenSentInvariant (update_email_confirmation_token row token new_email now) ∧
    (update_email_confirmed row new_email now).email_confirmation_token = none ∧
    (update_email_confirmed row new_email now).new_email = none ∧
    (update_email_confirmed row new_email now).email_confirmation_sent_at =
      row.email_confirmation_sent_at := by
  refine ⟨?_, rfl, rfl, rfl⟩
  simp [tokenSentInvariant, update_email_confirmation_token]

/-- C5: confirming a pending new email that another account already uses
makes the UPDATE fail on the unique email constraint, but the repository
code translates that `UniqueViolation` database error — like the dedicated
`From` conversion on `sqlx::Error` — into `UnknownError`, not into the
`EmailAddressInUse` variant the spec requires (that variant exists and is
wired through to an HTTP 409 mapping, yet nothing ever produces it). The
row itself is left unchanged by the failed UPDATE. -/
theorem update_email_confirmed_unique_violation :
    pg_update_email_confirmed ⟨"old@x.com", some "new@x.com", none, some "T", some 5⟩
        (some "new@x.com") 10 ["new@x.com"] =
      Except.error UpdateUserError.UnknownError ∧
    updateUserErrorFromSqlx (SqlxError.Database SqlxErrorKind.UniqueViolation) =
      UpdateUserError.UnknownError ∧
    pgUpdateEmailConfirmedMapErr (SqlxError.Database SqlxErrorKind.UniqueViolation) =
      UpdateUserError.UnknownError ∧
    UpdateUserError.UnknownError ≠ UpdateUserError.EmailAddressInUse := by
  decide

set_option maxRecDepth 40000

/-- Counterexample to C8 as stated: at a concrete user id, 64-character
alphanumeric salt and timestamp, the token the code mints (hashing user id,
then salt, then timestamp) differs from the URL-safe base64 encoding of
the SHA-256 digest of salt, then user id, then timestamp — the
concatenation order the claim states. -/
theorem confirmation_token_order_counterexample :
    mkConfirmationToken "00000000-0000-0000-0000-000000000000"
        "ABCDEFGHIJKLMNOPQRSTUVWXYZabcdefghijklmnopqrstuvwxyz012345678901" 1700000000 ≠
      String.mk (urlSafeEncode (sha256 (strBytes
        ("ABCDEFGHIJKLMNOPQRSTUVWXYZabcdefghijklmnopqrstuvwxyz012345678901" ++
         "00000000-0000-0000-0000-000000000000" ++ toString (1700000000 : Int))))) := by
  decide

/-- C8 (amended): every generated confirmation token is the URL-safe
base64 encoding of the SHA-256 digest of the user id, then the per-request
salt, then the decimal Unix timestamp — in that concatenation order — and
the encoded token is always exactly 44 characters long. -/
theorem mkConfirmationToken_spec (user_id salt : String) (timestamp : Int) :
    mkConfirmationToken user_id salt timestamp =
      String.mk (urlSafeEncode (sha256 (strBytes (user_id ++ salt ++ toString timestamp)))) ∧
    (mkConfirmationToken user_id salt timestamp).length = 44 := by
  refine ⟨rfl, ?_⟩
  have h32 := sha256_length (strBytes (confirmationTokenData user_id salt timestamp))
  simp [mkConfirmationToken, String.length, urlSafeEncode_length, h32]

/-- Counterexample to C9 as stated: the four-character input of latin
small letter e with acute accent occupies eight UTF-8 bytes, so
`Password::new` does not return `TooShort` for it even though its
character count is below eight — the length checks count bytes, not
characters (here the strength estimator is instantiated to report the
lowest score with no feedback, and the result is `TooWeak`). -/
theorem password_too_short_chars_counterexample :
    "éééé".length < 8 ∧
    Password.new (fun _ => 0) (fun _ => none) "éééé" =
      Except.error (PasswordError.TooWeak ["Please choose a stronger password."]) ∧
    Password.new (fun _ => 0) (fun _ => none) "éééé" ≠
      Except.error PasswordError.TooShort := by
  decide

/-- C9 (amended): for every strength oracle and every input whose UTF-8
byte length is below 8, `Password::new` returns `TooShort`; for byte
length above 100 it returns `TooLong`; and these length checks run before
the strength check, so an input whose byte length is out of bounds never
yields `TooWeak` and never succeeds. -/
theorem password_length_checks (score : String → Nat)
    (feedback : String → Option (List String)) (raw : String) :
    (rustStrLen raw < 8 →
      Password.new score feedback raw = Except.error PasswordError.TooShort) ∧
    (rustStrLen raw > 100 →
      Password.new score feedback raw = Except.error PasswordError.TooLong) ∧
    ((rustStrLen raw < 8 ∨ rustStrLen raw > 100) →
      (∀ s, Password.new score feedback raw ≠ Except.error (PasswordError.TooWeak s)) ∧
      ∀ ok, Password.new score feedback raw ≠ Except.ok ok) := by
  refine ⟨?_, ?_, ?_⟩
  · intro h
    simp [Password.new, h]
  · intro h
    have h8 : ¬ rustStrLen raw < 8 := by omega
    simp [Password.new, h, h8]
  · intro h
    rcases h with h | h
    · simp [Password.new, h]
    · have h8 : ¬ rustStrLen raw < 8 := by omega
      simp [Password.new, h, h8]

/-- Witness for C9 (amended): a five-byte input is rejected as too short,
and a 101-byte input as too long, for a fixed strength oracle. -/
theorem password_length_checks_witness :
    Password.new (fun _ => 4) (fun _ => none) "short" =
      Except.error PasswordError.TooShort ∧
    Password.new (fun _ => 4) (fun _ => none)
        (String.mk (List.replicate 101 'a')) =
      Except.error PasswordError.TooLong :=
  ⟨(password_length_checks (fun _ => 4) (fun _ => none) "short").1 (by decide),
   (password_length_checks (fun _ => 4) (fun _ => none)
      (String.mk (List.replicate 101 'a'))).2.1 (by decide)⟩

/-- C10: the email validation accepts non-empty inputs with an empty local
part and with an empty final label: both strings below match EMAIL_REGEX —
witnessed against the declarative regex semantics with explicitly empty
segments — and `EmailAddress::new` returns them unchanged, so
non-emptiness of the parts of the local at domain dot tld shape is not
enforced. -/
theorem email_address_empty_segments_accepted :
    EmailAddress.new "@example.com" = Except.ok "@example.com" ∧
    EmailAddress.new "a@b." = Except.ok "a@b." ∧
    emailRegexSemantics "@example.com".data ∧
    emailRegexSemantics "a@b.".data := by
  refine ⟨by decide, by decide, ?_, ?_⟩
  · exact ⟨[], "example".data, "com".data, by decide, by decide, by decide, by decide⟩
  · exact ⟨"a".data, "b".data, [], by decide, by decide, by decide, by decide⟩

/-- The tail condition of the matcher characterises the part after the at
sign: all characters admissible and a dot present is the same as splitting
somewhere at a dot into two admissible segments. -/
theorem emailTail_iff (rest : List Char) :
    (rest.all isSegChar && rest.contains '.') = true ↔
      ∃ b c, rest = b ++ '.' :: c ∧
        (∀ ch ∈ b, isSegChar ch) ∧ (∀ ch ∈ c, isSegChar ch) := by
  rw [Bool.and_eq_true, List.all_eq_true, List.elem_iff]
  constructor
  · rintro ⟨hall, hmem⟩
    obtain ⟨b, c, rfl⟩ := List.append_of_mem hmem
    refine ⟨b, c, rfl, fun ch hch => hall ch ?_, fun ch hch => hall ch ?_⟩
    · exact List.mem_append_left _ hch
    · exact List.mem_append_right _ (List.mem_cons_of_mem _ hch)
  · rintro ⟨b, c, rfl, hb, hc⟩
    constructor
    · intro ch hch
      rcases List.mem_append.mp hch with h | h
      · exact hb ch h
      · rcases List.mem_cons.mp h with rfl | h
        · decide
        · exact hc ch h
    · exact List.mem_append_right _ (List.mem_cons_self _ _)

/-- Soundness and completeness of the executable matcher against the
declarative reading of EMAIL_REGEX. -/
theorem emailRegexIsMatch_iff : (s : List Char) →
    (emailRegexIsMatch s = true ↔ emailRegexSemantics s)
  | [] => by
      simp only [emailRegexSemantics]
      constructor
      · intro h; exact absurd h (by decide)
      · rintro ⟨a, b, c, h, -⟩
        cases a <;> simp_all
  | ch :: rest => by
      by_cases hat : ch = '@'
      · subst hat
        have hdef : emailRegexIsMatch ('@' :: rest) =
            (rest.all isSegChar && rest.contains '.') := by
          simp [emailRegexIsMatch]
        rw [hdef, emailTail_iff]
        simp only [emailRegexSemantics]
        constructor
        · rintro ⟨b, c, rfl, hb, hc⟩
          exact ⟨[], b, c, rfl, fun x hx => absurd hx (List.not_mem_nil x), hb, hc⟩
        · rintro ⟨a, b, c, heq, ha, hb, hc⟩
          cases a with
          | nil =>
              rw [List.nil_append] at heq
              injection heq with h1 h2
              exact ⟨b, c, h2, hb, hc⟩
          | cons x xs =>
              rw [List.cons_append] at heq
              injection heq with h1 h2
              have hx : isSegChar x = true := ha x (List.mem_cons_self _ _)
              rw [← h1] at hx
              exact absurd hx (by decide)
      · have ih := emailRegexIsMatch_iff rest
        have hdef : emailRegexIsMatch (ch :: rest) =
            (isSegChar ch && emailRegexIsMatch rest) := by
          simp [emailRegexIsMatch, hat]
        rw [hdef]
        simp only [Bool.and_eq_true, ih, emailRegexSemantics]
        constructor
        · rintro ⟨hseg, a, b, c, rfl, ha, hb, hc⟩
          refine ⟨ch :: a, b, c, rfl, ?_, hb, hc⟩
          intro x hx
          rcases List.mem_cons.mp hx with rfl | hx
          · exact hseg
          · exact ha x hx
        · rintro ⟨a, b, c, heq, ha, hb, hc⟩
          cases a with
          | nil =>
              rw [List.nil_append] at heq
              injection heq with h1 h2
              exact absurd h1 hat
          | cons x xs =>
              rw [List.cons_append] at heq
              injection heq with h1 h2
              subst h1
              refine ⟨ha ch (List.mem_cons_self _ _), xs, b, c, h2, ?_, hb, hc⟩
              exact fun y hy => ha y (List.mem_cons_of_mem _ hy)
